import Mathlib

/-!
Verification development for the ride-pooling insertion scheduler
(src/ridepooling/pooling.py, vehicle.py, request.py).

Modelling conventions, chosen to mirror the source:
* Times are whole minutes, represented as `Int` (the source builds all
  timestamps from `timedelta(minutes=...)` increments on `datetime`s;
  differences between two such timestamps are whole minutes).
* A pandas dataframe representing a schedule is a `List (Int × Stop)`:
  the rows in dataframe order, each carrying its integer index label.
  Label-based accesses (`.at[i]`, `.index.isin`, `min(schedule.index)`)
  are embedded as label lookups over that association list.
* `timedelta.seconds` of a possibly-negative whole-minute timedelta of
  d minutes is `(60 * d) % 86400` (Python normalises a timedelta so that
  its seconds field lies in [0, 86400)); `// 60` is floor division of
  that non-negative quantity.  `pyDelay` embeds the composite.
* Scores are exact rationals `ℚ` in place of Python floats; all concrete
  scenarios below use values on which the two coincide.
* The `ZeroDivisionError` raised by the progress print in
  `Pooling.__init__` when `len(request_list) == 1` is embedded by letting
  the run return `none`.
-/

set_option maxRecDepth 20000

namespace Ridepooling

/-- One row of a schedule dataframe: the columns of the frames built in
Pooling.creating_possible_schedules (pooling.py lines 116-165). -/
structure Stop where
  station : Nat
  boarding : Int
  promissed : Int
  requestId : Nat
  planed : Int
  delay : Int
  occupation : Int
  maxDelay : Int
deriving DecidableEq

/-- A schedule dataframe: rows in dataframe order, each with its index label. -/
abbrev Sched := List (Int × Stop)

/-- Vehicle (vehicle.py).  The fields `name`, `type`, `location` and
`passangers` play no role in the pooling logic and are omitted. -/
structure Vehicle where
  id : Nat
  seats : Int
  schedule : Sched
deriving DecidableEq

/-- Request (request.py).  `waytime` is the travel time from `start` to
`destination` looked up at construction (simulation.py); the unused
`status`/`time` fields are omitted. -/
structure Request where
  start : Nat
  destination : Nat
  requestId : Nat
  startTime : Int
  passangers : Int
  delayMax : Int
  waytime : Int
deriving DecidableEq

/-- The configuration weights consumed by Pooling (cfg_dict["weights"]). -/
structure Weights where
  delayFactor : ℚ
  balanceFactor : ℚ
  poolingFactor : ℚ
  distanceFactor : ℚ
  delayMax : Int
  standingTime : Int

/-- The two matrices.  `wmax` embeds `waytime.values.max()` computed once in
Pooling.__init__ (line 52); `waytime` and `distance` embed the `.loc`
lookups on the two dataframes. -/
structure Env where
  waytime : Nat → Nat → Int
  wmax : Int
  distance : Nat → Nat → ℚ

def dfltStop : Stop :=
  { station := 0, boarding := 0, promissed := 0, requestId := 0,
    planed := 0, delay := 0, occupation := 0, maxDelay := 0 }

def dfltVehicle : Vehicle := { id := 0, seats := 0, schedule := [] }

/-- Candidate entry: the per-candidate dict built in
creating_possible_schedules (lines 175-190 and 220-235).  The score
fields of the dict are write-only until calculate_score recomputes them,
so only the fields that carry information between phases are kept. -/
structure Entry where
  vehicle : Nat
  delayOld : Int
  distanceOld : ℚ
  sched : Sched
  balance : Nat
  poolingRate : ℚ
deriving DecidableEq

def dfltEntry : Entry :=
  { vehicle := 0, delayOld := 0, distanceOld := 0, sched := [],
    balance := 0, poolingRate := 0 }

/-- Embeds `int((planed - promissed).seconds // 60)` (pooling.py lines
296-302 and 320-326) for whole-minute timestamps: Python normalises the
timedelta so `.seconds` is the non-negative remainder mod one day. -/
def pyDelay (planed promissed : Int) : Int :=
  (60 * (planed - promissed)) % 86400 / 60

/-- Label lookup, embedding `schedule.at[i, ...]` (labels are unique in
every schedule the pooling loop builds). -/
def lookupRow (i : Int) : Sched → Option Stop
  | [] => none
  | (j, s) :: rest => if j = i then some s else lookupRow i rest

/-- Python `max` over a nonempty list (`none` embeds the NaN that pandas
`.max()` yields on an empty column). -/
def maxOrNone : List Int → Option Int
  | [] => none
  | h :: t => some (t.foldl max h)

/-- Comparison `bound < column.max()`; against NaN (empty column) every
comparison is False in Python. -/
def exceedsInt (o : Option Int) (bound : Int) : Bool :=
  match o with
  | none => false
  | some m => decide (bound < m)

def delaySum (s : Sched) : Int := (s.map (fun row => row.2.delay)).foldl (· + ·) 0

def occSum (s : Sched) : Int := (s.map (fun row => row.2.occupation)).foldl (· + ·) 0

/-- The per-stop update of check_occupation_delay's else branch (lines
303-326): cumulative occupation, replanned time, recomputed delay. -/
def updStop (env : Env) (cfg : Weights) (prev cur : Stop) : Stop :=
  let occ := prev.occupation + cur.boarding
  let pl := prev.planed + env.waytime prev.station cur.station + cfg.standingTime
  { cur with occupation := occ, planed := pl, delay := pyDelay pl cur.promissed }

def recomputeAux (env : Env) (cfg : Weights) (prev : Stop) : Sched → Sched
  | [] => []
  | (i, s) :: rest =>
    let s2 := updStop env cfg prev s
    (i, s2) :: recomputeAux env cfg s2 rest

/-- The mutation pass of check_occupation_delay (lines 293-326): the first
row keeps its occupation and planned time and only has its delay
recomputed (lines 294-302); every later row is updated from its
predecessor. -/
def recomputeSched (env : Env) (cfg : Weights) : Sched → Sched
  | [] => []
  | (i, s) :: rest =>
    let s2 := { s with delay := pyDelay s.planed s.promissed }
    (i, s2) :: recomputeAux env cfg s2 rest

/-- Adjacent pickup-then-dropoff at a shared station, over a row list. -/
def adjViol : List Stop → Bool
  | a :: b :: t =>
    (a.station == b.station && decide (0 < a.boarding) && decide (b.boarding < 0))
      || adjViol (b :: t)
  | _ => false

/-- The "letting people get out before letting new in" check (lines
328-337).  It runs inside the else branch, i.e. only while processing a
row that is NOT the first row of the candidate, so the pair starting at
the first row is never examined. -/
def sameStationViol (s : Sched) : Bool :=
  match s with
  | [] => false
  | _ :: rest => adjViol (rest.map (fun row => row.2))

/-- check_occupation_delay (pooling.py lines 267-352): recompute each
candidate's occupation/planned/delay columns, store the pooling rate,
and drop candidates with a same-station violation, a delay above
cfg delay_max, or an occupation above the vehicle's seats. -/
def checkOccupationDelay (env : Env) (cfg : Weights) (vehicles : List Vehicle)
    (entries : List Entry) : List Entry :=
  entries.filterMap fun e =>
    let sched2 := recomputeSched env cfg e.sched
    let pr : ℚ := (occSum sched2 : ℚ) / (sched2.length : ℚ)
    let seats := (vehicles.getD e.vehicle dfltVehicle).seats
    if sameStationViol sched2
        || exceedsInt (maxOrNone (sched2.map (fun row => row.2.delay))) cfg.delayMax
        || exceedsInt (maxOrNone (sched2.map (fun row => row.2.occupation))) seats
    then none
    else some { e with sched := sched2, poolingRate := pr }

/-- calculating_distance (pooling.py lines 456-482): for every row whose
label is not the maximal label, add the distance from its station to the
station of the row labelled one higher.  (A missing label `i+1` raises a
KeyError in the source; it cannot occur at the call sites, where labels
are consecutive, and contributes 0 here.) -/
def calculatingDistance (env : Env) (s : Sched) : ℚ :=
  let m := maxOrNone (s.map (fun row => row.1))
  (s.map fun row =>
    if some row.1 = m then (0 : ℚ)
    else
      match lookupRow (row.1 + 1) s with
      | some nxt => env.distance row.2.station nxt.station
      | none => 0).foldl (· + ·) 0

/-- The start_frame of creating_possible_schedules (lines 116-140), as a row. -/
def startStop (r : Request) : Stop :=
  { station := r.start, boarding := r.passangers, promissed := r.startTime,
    requestId := r.requestId, planed := r.startTime, delay := 0,
    occupation := r.passangers, maxDelay := r.delayMax }

/-- The destination_frame of creating_possible_schedules (lines 141-165). -/
def destStop (cfg : Weights) (r : Request) : Stop :=
  { station := r.destination, boarding := -r.passangers,
    promissed := r.startTime + r.waytime + cfg.standingTime,
    requestId := r.requestId, planed := r.startTime, delay := 0,
    occupation := -r.passangers, maxDelay := r.delayMax }

/-- The windowed schedule (lines 110-113): rows whose planned time is
later than the request's start time minus (waytime_max + 5) minutes. -/
def windowOf (env : Env) (r : Request) (v : Vehicle) : Sched :=
  v.schedule.filter fun row =>
    decide (r.startTime - (env.wmax + 5) < row.2.planed)

/-- Reassign labels positionally: start, start+step, ... (embeds
`set_index(pd.Series(...))`, which assigns labels by position). -/
def withLabelsFrom (start step : Int) : Sched → Sched
  | [] => []
  | (_, s) :: t => (start, s) :: withLabelsFrom (start + step) step t

/-- Lines 198-205: the windowed schedule reindexed to labels 3, 6, 9, ... -/
def reindex3 (s : Sched) : Sched := withLabelsFrom 3 3 s

/-- min(schedule.index) over a nonempty windowed schedule (line 197). -/
def minLabel : Sched → Int
  | [] => 0
  | (i, _) :: t => t.foldl (fun a row => min a row.1) i

/-- Python max over a nonempty list of labels (0 on [] is never used:
the only call site is guarded by nonemptiness). -/
def listMaxInt : List Int → Int
  | [] => 0
  | h :: t => t.foldl max h

/-- index_relevant (lines 206-213): labels of the reindexed windowed rows
whose promised time is before start_time + waytime + cfg delay_max. -/
def relevantOf (env : Env) (cfg : Weights) (r : Request) (v : Vehicle) : List Int :=
  ((reindex3 (windowOf env r v)).filter fun row =>
    decide (row.2.promissed < r.startTime + r.waytime + cfg.delayMax)).map
    (fun row => row.1)

/-- Insertion sort by label, embedding `sort_index()` on a frame whose
labels are pairwise distinct (schedule labels are multiples of 3, the
start label is 1 mod 3 and the destination label is 2 mod 3). -/
def insertByLabel (row : Int × Stop) : Sched → Sched
  | [] => [row]
  | h :: t => if row.1 ≤ h.1 then row :: h :: t else h :: insertByLabel row t

def sortByLabel : Sched → Sched
  | [] => []
  | h :: t => insertByLabel h (sortByLabel t)

/-- The loop values t0, t0+3, t0+6, ... while < bound, embedding the two
`while ... < max(index_relevant) + 3` loops (lines 217-219, 263-264).
Fuel (bound - t0).toNat dominates the iteration count since each step
advances by 3. -/
def whileLt3Aux : Nat → Int → Int → List Int
  | 0, _, _ => []
  | fuel + 1, bound, t => if t < bound then t :: whileLt3Aux fuel bound (t + 3) else []

def whileLt3 (bound t0 : Int) : List Int := whileLt3Aux (bound - t0).toNat bound t0

/-- The candidate of the empty-window branch (lines 168-194): the bare
[start, destination] pair labelled len(vehicle.schedule)+1, +2. -/
def emptyWindowEntry (cfg : Weights) (r : Request) (v : Vehicle) (vIdx : Nat) : Entry :=
  { vehicle := vIdx, delayOld := 0, distanceOld := 0,
    sched := [((v.schedule.length : Int) + 1, startStop r),
              ((v.schedule.length : Int) + 2, destStop cfg r)],
    balance := v.schedule.length, poolingRate := 0 }

/-- One candidate of the insertion loops (lines 220-262): the reindexed
windowed schedule plus the start frame at label s and the destination
frame at label t, sorted by label and relabelled consecutively from
index_final_start. -/
def pairEntry (cfg : Weights) (r : Request) (v : Vehicle) (vIdx : Nat)
    (reindexed : Sched) (ifs : Int) (delayOld : Int) (distanceOld : ℚ)
    (s t : Int) : Entry :=
  let merged := sortByLabel (reindexed ++ [(s, startStop r), (t, destStop cfg r)])
  { vehicle := vIdx, delayOld := delayOld, distanceOld := distanceOld,
    sched := withLabelsFrom ifs 1 merged,
    balance := v.schedule.length, poolingRate := 0 }

/-- All candidates of one vehicle with a nonempty window and nonempty
relevant set (lines 196-264). -/
def vehicleEntries (env : Env) (cfg : Weights) (r : Request) (v : Vehicle)
    (vIdx : Nat) : List Entry :=
  let windowed := windowOf env r v
  let ifs := minLabel windowed
  let delayOld := delaySum windowed
  let distanceOld := calculatingDistance env windowed
  let reindexed := reindex3 windowed
  let bound := listMaxInt (relevantOf env cfg r v) + 3
  (whileLt3 bound 1).flatMap fun s =>
    (whileLt3 bound (s + 1)).map fun t =>
      pairEntry cfg r v vIdx reindexed ifs delayOld distanceOld s t

/-- The per-vehicle loop of creating_possible_schedules (lines 107-265).
Note the `break` on line 216: an empty relevant set aborts the loop over
the WHOLE vehicle list, not just the current vehicle. -/
def cpsGo (env : Env) (cfg : Weights) (r : Request) : Nat → List Vehicle → List Entry
  | _, [] => []
  | i, v :: rest =>
    if (windowOf env r v).length = 0 then
      emptyWindowEntry cfg r v i :: cpsGo env cfg r (i + 1) rest
    else if (relevantOf env cfg r v).length = 0 then
      []
    else
      vehicleEntries env cfg r v i ++ cpsGo env cfg r (i + 1) rest

/-- creating_possible_schedules (pooling.py lines 81-265).  The dict of
candidates, keyed by insertion order, is the returned list; a vehicle is
identified by its position in vehicle_list (the dict stores the object). -/
def creatingPossibleSchedules (env : Env) (cfg : Weights) (vehicles : List Vehicle)
    (r : Request) : List Entry :=
  cpsGo env cfg r 0 vehicles

/-- score_list.index(max(score_list)) needs Python max over a nonempty
rational list (0 on [] is never used: calculate_score is only called on
a nonempty dict). -/
def listMaxQ : List ℚ → ℚ
  | [] => 0
  | h :: t => t.foldl max h

/-- list.index(a): position of the first occurrence of a. -/
def pyIndex (a : ℚ) : List ℚ → Nat
  | [] => 0
  | h :: t => if h = a then 0 else pyIndex a t + 1

/-- The score of every entry, in dict order (calculate_score, lines
374-451): each of the four deltas is normalised by its maximum over the
surviving candidates and the four normalised scores are blended with the
configured weights.  The balance term reads the live length of the
entry's vehicle's committed schedule (line 394/400). -/
def scoresOf (env : Env) (cfg : Weights) (vehicles : List Vehicle)
    (entries : List Entry) : List ℚ :=
  let maxDelay := listMaxInt (entries.map fun e => delaySum e.sched - e.delayOld)
  let maxBal := listMaxInt (entries.map fun e =>
    ((vehicles.getD e.vehicle dfltVehicle).schedule.length : Int))
  let maxPool := listMaxQ (entries.map fun e => e.poolingRate)
  let maxDist := listMaxQ (entries.map fun e => calculatingDistance env e.sched - e.distanceOld)
  entries.map fun e =>
    (if maxDelay = 0 then 1
      else 1 - ((delaySum e.sched - e.delayOld : Int) : ℚ) / (maxDelay : ℚ)) * cfg.delayFactor
    + (if maxBal = 0 then 1
      else 1 - ((vehicles.getD e.vehicle dfltVehicle).schedule.length : ℚ) / (maxBal : ℚ)) * cfg.balanceFactor
    + (if maxPool = 0 then 0 else e.poolingRate / maxPool) * cfg.poolingFactor
    + (if maxDist = 0 then 1
      else 1 - (calculatingDistance env e.sched - e.distanceOld) / maxDist) * cfg.distanceFactor

/-- calculate_score (pooling.py lines 354-454): the entry at the first
position attaining the maximal score (`score_list.index(max(score_list))`). -/
def calculateScore (env : Env) (cfg : Weights) (vehicles : List Vehicle)
    (entries : List Entry) : Entry :=
  let scores := scoresOf env cfg vehicles entries
  entries.getD (pyIndex (listMaxQ scores) scores) dfltEntry

/-- Vehicle.update_schedule (vehicle.py lines 81-97): keep the rows of the
old schedule whose labels do not occur in the new one, then append the
new schedule. -/
def updateSchedule (old new : Sched) : Sched :=
  (old.filter fun row => new.all fun n => n.1 != row.1) ++ new

/-- The feasible set for one request: enumerator piped into the checker
(__init__ lines 63-69). -/
def feasibleFor (env : Env) (cfg : Weights) (vehicles : List Vehicle)
    (r : Request) : List Entry :=
  checkOccupationDelay env cfg vehicles (creatingPossibleSchedules env cfg vehicles r)

/-- One iteration of the dispatch loop in Pooling.__init__ (lines 63-79):
commit the best candidate to its vehicle, or append the request to
requests_denied_list. -/
def processRequest (env : Env) (cfg : Weights) (st : List Vehicle × List Request)
    (r : Request) : List Vehicle × List Request :=
  let feasible := feasibleFor env cfg st.1 r
  if feasible.length ≠ 0 then
    let best := calculateScore env cfg st.1 feasible
    let v := st.1.getD best.vehicle dfltVehicle
    (st.1.set best.vehicle { v with schedule := updateSchedule v.schedule best.sched }, st.2)
  else
    (st.1, st.2 ++ [r])

/-- Pooling.__init__ (lines 29-79).  The progress print divides by
len(request_list) - 1 on every iteration (line 58); for a single-request
list this raises ZeroDivisionError on the first iteration, before any
request is dispatched — embedded as `none`.  Otherwise the requests are
dispatched in input order and the final vehicle states and denied list
are returned. -/
def poolingRun (env : Env) (cfg : Weights) (vehicles : List Vehicle)
    (requests : List Request) : Option (List Vehicle × List Request) :=
  if requests.length = 1 then none
  else some (requests.foldl (processRequest env cfg) (vehicles, []))

/-! Concrete fixtures: a two-station world with 10-minute legs, standing
time 1 minute, used by all concrete scenarios below. -/

/-- Two stations 1 and 2; every proper leg takes 10 minutes (so
waytime.values.max() = 10) and is 10 distance units long. -/
def envT : Env :=
  { waytime := fun a b => if a = b then 0 else 10,
    wmax := 10,
    distance := fun a b => if a = b then 0 else 10 }

/-- Weights scoring by distance only, delay_max 30, standing_time 1. -/
def cfgT : Weights :=
  { delayFactor := 0, balanceFactor := 0, poolingFactor := 0,
    distanceFactor := 1, delayMax := 30, standingTime := 1 }

/-- Weights with a delay cap large enough to retain wrapped "early" delays. -/
def cfgBig : Weights :=
  { delayFactor := 0, balanceFactor := 0, poolingFactor := 0,
    distanceFactor := 1, delayMax := 2000, standingTime := 1 }

/-- An empty 2-seat vehicle. -/
def vehT : Vehicle := { id := 0, seats := 2, schedule := [] }

/-- Request 1: two passengers from station 1 to station 2 at t = 0. -/
def reqA : Request :=
  { start := 1, destination := 2, requestId := 1, startTime := 0,
    passangers := 2, delayMax := 30, waytime := 10 }

/-- Request 2: one passenger from station 1 to station 2 at t = 20. -/
def reqB : Request :=
  { start := 1, destination := 2, requestId := 2, startTime := 20,
    passangers := 1, delayMax := 30, waytime := 10 }

/-- A committed dropoff of 2 passengers at station 2, planned and
promised at t = 11 (exactly what committing reqA leaves behind). -/
def oldDropC1 : Stop :=
  { station := 2, boarding := -2, promissed := 11, requestId := 1,
    planed := 11, delay := 0, occupation := 0, maxDelay := 30 }

/-- A vehicle whose schedule holds the single committed stop oldDropC1. -/
def vehC1 : Vehicle := { id := 0, seats := 2, schedule := [(1, oldDropC1)] }

/-- One passenger from station 1 to station 2 at t = 24: inserting its
pickup after oldDropC1 plans the pickup at t = 22, two minutes EARLY. -/
def reqC1 : Request :=
  { start := 1, destination := 2, requestId := 2, startTime := 24,
    passangers := 1, delayMax := 2000, waytime := 10 }

/-- A committed dropoff of 2 passengers at station 1 at t = 10. -/
def oldDropC4 : Stop :=
  { station := 1, boarding := -2, promissed := 10, requestId := 1,
    planed := 10, delay := 0, occupation := 0, maxDelay := 30 }

/-- A vehicle whose schedule holds the single committed stop oldDropC4. -/
def vehC4 : Vehicle := { id := 0, seats := 2, schedule := [(1, oldDropC4)] }

/-- A stop whose promised time t = 60 equals the relevant-set threshold of
reqB (20 + 10 + 30), so it is windowed but not relevant. -/
def farStopC2 : Stop :=
  { station := 2, boarding := -1, promissed := 60, requestId := 1,
    planed := 10, delay := 0, occupation := 0, maxDelay := 30 }

/-- A vehicle whose windowed schedule is nonempty but whose relevant set
for reqB is empty: processing it hits the `break`. -/
def vehC2 : Vehicle := { id := 0, seats := 2, schedule := [(1, farStopC2)] }

/-- An idle vehicle listed after vehC2. -/
def vehC2b : Vehicle := { id := 1, seats := 2, schedule := [] }

/-- Running occupancy: the cumulative sums of the boarding column, i.e.
the occupation(k) = sum of boarding(i) for i ≤ k of the specification. -/
def runningOcc (acc : Int) : Sched → List Int
  | [] => []
  | row :: t => (acc + row.2.boarding) :: runningOcc (acc + row.2.boarding) t

/-! ## Helper lemmas -/

/-- The composite `.seconds // 60` collapses, for whole-minute timestamps,
to the minute difference taken modulo one day (1440 minutes). -/
lemma pyDelay_eq_emod (p q : Int) : pyDelay p q = (p - q) % 1440 := by
  unfold pyDelay
  omega

/-- Membership in the checker's output: exactly the entries whose
recomputed schedule passes all three rejection tests, with schedule and
pooling rate updated. -/
lemma mem_checkOccupationDelay_iff (env : Env) (cfg : Weights)
    (vehicles : List Vehicle) (entries : List Entry) (e2 : Entry) :
    e2 ∈ checkOccupationDelay env cfg vehicles entries ↔
      ∃ e ∈ entries,
        (sameStationViol (recomputeSched env cfg e.sched)
          || exceedsInt (maxOrNone ((recomputeSched env cfg e.sched).map
              (fun row => row.2.delay))) cfg.delayMax
          || exceedsInt (maxOrNone ((recomputeSched env cfg e.sched).map
              (fun row => row.2.occupation)))
              (vehicles.getD e.vehicle dfltVehicle).seats) = false
        ∧ e2 = { e with
                 sched := recomputeSched env cfg e.sched
                 poolingRate := (occSum (recomputeSched env cfg e.sched) : ℚ)
                   / ((recomputeSched env cfg e.sched).length : ℚ) } := by
  simp only [checkOccupationDelay, List.mem_filterMap]
  constructor
  · rintro ⟨e, he, hfe⟩
    refine ⟨e, he, ?_, ?_⟩
    · by_contra hcond
      rw [Bool.not_eq_false] at hcond
      simp only [hcond, if_true] at hfe
      exact Option.noConfusion hfe
    · rcases hb : (sameStationViol (recomputeSched env cfg e.sched)
          || exceedsInt (maxOrNone ((recomputeSched env cfg e.sched).map
              (fun row => row.2.delay))) cfg.delayMax
          || exceedsInt (maxOrNone ((recomputeSched env cfg e.sched).map
              (fun row => row.2.occupation)))
              (vehicles.getD e.vehicle dfltVehicle).seats) with _ | _
      · simp only [hb, if_false] at hfe
        exact (Option.some.injEq _ _ ▸ hfe).symm
      · simp only [hb, if_true] at hfe
        exact Option.noConfusion hfe
  · rintro ⟨e, he, hcond, rfl⟩
    refine ⟨e, he, ?_⟩
    simp only [hcond]
    rfl

/-- Every row the update step writes carries delay = pyDelay of its own
(planned, promised) pair. -/
lemma mem_recomputeAux_delay (env : Env) (cfg : Weights) :
    ∀ (l : Sched) (prev : Stop) (row : Int × Stop),
      row ∈ recomputeAux env cfg prev l →
      row.2.delay = pyDelay row.2.planed row.2.promissed := by
  intro l
  induction l with
  | nil => intro prev row h; exact absurd h (List.not_mem_nil _)
  | cons a rest ih =>
    intro prev row h
    rcases a with ⟨i, s⟩
    rcases List.mem_cons.mp h with h1 | h2
    · subst h1
      rfl
    · exact ih _ _ h2

/-- Every row of a recomputed schedule carries delay = pyDelay of its own
(planned, promised) pair; for the first row this is the delay recomputed
on the anchored planned time. -/
lemma mem_recomputeSched_delay (env : Env) (cfg : Weights) (l : Sched)
    (row : Int × Stop) (h : row ∈ recomputeSched env cfg l) :
    row.2.delay = pyDelay row.2.planed row.2.promissed := by
  match l with
  | [] => exact absurd h (List.not_mem_nil _)
  | (i, s) :: rest =>
    rcases List.mem_cons.mp h with h1 | h2
    · subst h1
      rfl
    · exact mem_recomputeAux_delay env cfg rest _ row h2

/-- updStop leaves a stop unchanged when its fields already satisfy the
update equations (structure eta). -/
lemma updStop_self (env : Env) (cfg : Weights) (prev s : Stop)
    (h1 : s.occupation = prev.occupation + s.boarding)
    (h2 : s.planed = prev.planed + env.waytime prev.station s.station + cfg.standingTime)
    (h3 : s.delay = pyDelay s.planed s.promissed) :
    updStop env cfg prev s = s := by
  simp only [updStop]
  rw [← h2, ← h3, ← h1]

/-- The per-row update pass is idempotent. -/
lemma recomputeAux_idem (env : Env) (cfg : Weights) :
    ∀ (l : Sched) (prev : Stop),
      recomputeAux env cfg prev (recomputeAux env cfg prev l)
        = recomputeAux env cfg prev l := by
  intro l
  induction l with
  | nil => intro prev; rfl
  | cons a rest ih =>
    intro prev
    rcases a with ⟨i, s⟩
    show recomputeAux env cfg prev
        ((i, updStop env cfg prev s) :: recomputeAux env cfg (updStop env cfg prev s) rest)
      = (i, updStop env cfg prev s) :: recomputeAux env cfg (updStop env cfg prev s) rest
    have hs : updStop env cfg prev (updStop env cfg prev s) = updStop env cfg prev s := by
      apply updStop_self <;> rfl
    show (i, updStop env cfg prev (updStop env cfg prev s))
        :: recomputeAux env cfg (updStop env cfg prev (updStop env cfg prev s))
             (recomputeAux env cfg (updStop env cfg prev s) rest)
      = (i, updStop env cfg prev s) :: recomputeAux env cfg (updStop env cfg prev s) rest
    rw [hs, ih]

/-- The mutation pass of the checker is idempotent. -/
lemma recomputeSched_idem (env : Env) (cfg : Weights) (l : Sched) :
    recomputeSched env cfg (recomputeSched env cfg l) = recomputeSched env cfg l := by
  cases l with
  | nil => rfl
  | cons a rest =>
    rcases a with ⟨i, s⟩
    show ((i, { s with delay := pyDelay s.planed s.promissed })
          :: recomputeAux env cfg { s with delay := pyDelay s.planed s.promissed }
               (recomputeAux env cfg { s with delay := pyDelay s.planed s.promissed } rest) : Sched)
      = (i, { s with delay := pyDelay s.planed s.promissed })
          :: recomputeAux env cfg { s with delay := pyDelay s.planed s.promissed } rest
    rw [recomputeAux_idem]

/-! ## Claim theorems -/

/-- C1, counterexample.  The checker, run on the candidates enumerated for
vehC1 and reqC1, retains a candidate (the one appending the new pickup
after the committed dropoff) whose pickup row is planned two minutes
BEFORE its promised time yet carries the written delay 1438, not 0: the
claimed clamping `delay = max(0, ...)` is false. -/
theorem c1_counterexample :
    ((((checkOccupationDelay envT cfgBig [vehC1]
          (creatingPossibleSchedules envT cfgBig [vehC1] reqC1)).getD 2
          dfltEntry).sched.getD 1 (0, dfltStop)).2.planed
        < (((checkOccupationDelay envT cfgBig [vehC1]
          (creatingPossibleSchedules envT cfgBig [vehC1] reqC1)).getD 2
          dfltEntry).sched.getD 1 (0, dfltStop)).2.promissed)
    ∧ (((checkOccupationDelay envT cfgBig [vehC1]
          (creatingPossibleSchedules envT cfgBig [vehC1] reqC1)).getD 2
          dfltEntry).sched.getD 1 (0, dfltStop)).2.delay = 1438 := by
  exact ⟨by with_unfolding_all decide, by with_unfolding_all rfl⟩

/-- C2, counterexample.  With vehC2 (nonempty window, empty relevant set)
listed before the idle vehicle vehC2b, enumeration yields NO candidate at
all, although vehC2b on its own yields one: the `break` on line 216 aborts
the whole vehicle loop instead of skipping one vehicle. -/
theorem c2_counterexample :
    creatingPossibleSchedules envT cfgT [vehC2, vehC2b] reqB = []
    ∧ creatingPossibleSchedules envT cfgT [vehC2b] reqB ≠ [] := by
  exact ⟨by with_unfolding_all rfl, by with_unfolding_all decide⟩

/-- C3, code bug.  Dispatching reqA then reqB on a single empty 2-seat
vehicle commits an itinerary whose stored occupation column is
[2, 1, 0, -2] — the final stop carries occupation -2 < 0 — and whose
cumulative boarding sums are [2, 3, 2, 0], exceeding seats = 2 at the
second stop.  Both bounds of the claimed invariant
0 ≤ occupation(k) ≤ seats fail on a committed itinerary. -/
theorem c3_code_bug_eval :
    (poolingRun envT cfgT [vehT] [reqA, reqB]).map
        (fun res => (res.1.map fun v =>
          (v.schedule.map fun row => row.2.occupation, runningOcc 0 v.schedule),
          res.2.length))
      = some ([([2, 1, 0, -2], [2, 3, 2, 0])], 0)
    ∧ vehT.seats = 2 := by
  exact ⟨by with_unfolding_all rfl, by decide⟩

/-- C4, counterexample.  For vehC4 and reqB the checker RETAINS (as its
only survivor) the candidate whose first stop is the new pickup at
station 1 immediately followed by the committed dropoff at station 1:
a pickup-then-dropoff pair at a shared station survives when the pickup
is the first stop of the candidate, because the rule on lines 328-337
only runs while processing a non-first row. -/
theorem c4_counterexample :
    (checkOccupationDelay envT cfgT [vehC4]
        (creatingPossibleSchedules envT cfgT [vehC4] reqB)).length = 1
    ∧ (((checkOccupationDelay envT cfgT [vehC4]
        (creatingPossibleSchedules envT cfgT [vehC4] reqB)).getD 0
        dfltEntry).sched.getD 0 (0, dfltStop)).2.station
      = (((checkOccupationDelay envT cfgT [vehC4]
        (creatingPossibleSchedules envT cfgT [vehC4] reqB)).getD 0
        dfltEntry).sched.getD 1 (0, dfltStop)).2.station
    ∧ 0 < (((checkOccupationDelay envT cfgT [vehC4]
        (creatingPossibleSchedules envT cfgT [vehC4] reqB)).getD 0
        dfltEntry).sched.getD 0 (0, dfltStop)).2.boarding
    ∧ (((checkOccupationDelay envT cfgT [vehC4]
        (creatingPossibleSchedules envT cfgT [vehC4] reqB)).getD 0
        dfltEntry).sched.getD 1 (0, dfltStop)).2.boarding < 0 := by
  refine ⟨?_, ?_, ?_, ?_⟩ <;> with_unfolding_all decide

/-- C8, counterexample.  With an empty fleet and a single request the run
does not end with that request denied: the progress print raises
ZeroDivisionError (len(request_list) - 1 = 0) before the request is
dispatched, so no denied list is produced at all. -/
theorem c8_counterexample :
    poolingRun envT cfgT [] [reqA] = none := by with_unfolding_all rfl

/-- C6, confirmed.  The scheduler is a pure function of the request list,
vehicle list, matrices (Env) and weights: two runs on equal inputs yield
equal vehicle itineraries and equal denied lists.  (In the source the
only iteration over a dict follows insertion order and no randomness,
time or ambient state is consulted.) -/
theorem c6_determinism (env env2 : Env) (cfg cfg2 : Weights)
    (vs vs2 : List Vehicle) (rs rs2 : List Request)
    (h1 : env = env2) (h2 : cfg = cfg2) (h3 : vs = vs2) (h4 : rs = rs2) :
    poolingRun env cfg vs rs = poolingRun env2 cfg2 vs2 rs2 := by
  subst h1; subst h2; subst h3; subst h4; rfl

theorem c6_determinism_witness :
    poolingRun envT cfgT [vehT] [reqA, reqB] = poolingRun envT cfgT [vehT] [reqA, reqB] :=
  c6_determinism envT envT cfgT cfgT [vehT] [vehT] [reqA, reqB] [reqA, reqB]
    rfl rfl rfl rfl

/-- C10, confirmed.  The progress computation int(counter /
(len(request_list) - 1) * 100) divides by zero exactly when the request
list has length 1, and does so on the first loop iteration, before the
single request is dispatched (no commit, no denial); for every other
length the division is defined and the dispatch loop runs to completion. -/
theorem c10_progress_division (env : Env) (cfg : Weights)
    (vs : List Vehicle) (rs : List Request) :
    (rs.length = 1 → poolingRun env cfg vs rs = none)
    ∧ (rs.length ≠ 1 →
        poolingRun env cfg vs rs = some (rs.foldl (processRequest env cfg) (vs, []))) := by
  constructor
  · intro h
    simp [poolingRun, h]
  · intro h
    simp [poolingRun, h]

theorem c10_progress_division_witness :
    (poolingRun envT cfgT [vehT] [reqA] = none)
    ∧ poolingRun envT cfgT [vehT] [reqA, reqB]
        = some ([reqA, reqB].foldl (processRequest envT cfgT) ([vehT], [])) :=
  ⟨(c10_progress_division envT cfgT [vehT] [reqA]).1 rfl,
   (c10_progress_division envT cfgT [vehT] [reqA, reqB]).2 (by decide)⟩

/-- C1, amended.  The delay the checker writes to every stop of a
candidate it retains equals ((planned - promised) in minutes) modulo one
day (Python's `.seconds // 60` on the signed timedelta), NOT
max(0, planned - promised): the two agree exactly when
0 ≤ planned - promised < 1440, but an early stop gets the wrapped
positive remainder instead of 0. -/
theorem c1_amended (env : Env) (cfg : Weights) (vehicles : List Vehicle)
    (entries : List Entry) (e2 : Entry)
    (h : e2 ∈ checkOccupationDelay env cfg vehicles entries) :
    ∀ row ∈ e2.sched, row.2.delay = (row.2.planed - row.2.promissed) % 1440 := by
  obtain ⟨e, _, _, he2⟩ := (mem_checkOccupationDelay_iff env cfg vehicles entries e2).mp h
  intro row hrow
  rw [← pyDelay_eq_emod]
  apply mem_recomputeSched_delay env cfg e.sched row
  have hs : e2.sched = recomputeSched env cfg e.sched := by rw [he2]
  rw [← hs]
  exact hrow

theorem c1_amended_witness :
    ((checkOccupationDelay envT cfgBig [vehC1]
        (creatingPossibleSchedules envT cfgBig [vehC1] reqC1)).getD 2 dfltEntry
      ∈ checkOccupationDelay envT cfgBig [vehC1]
          (creatingPossibleSchedules envT cfgBig [vehC1] reqC1))
    ∧ (∀ row ∈ ((checkOccupationDelay envT cfgBig [vehC1]
          (creatingPossibleSchedules envT cfgBig [vehC1] reqC1)).getD 2 dfltEntry).sched,
        row.2.delay = (row.2.planed - row.2.promissed) % 1440) :=
  ⟨by with_unfolding_all decide,
   c1_amended envT cfgBig [vehC1]
     (creatingPossibleSchedules envT cfgBig [vehC1] reqC1)
     ((checkOccupationDelay envT cfgBig [vehC1]
        (creatingPossibleSchedules envT cfgBig [vehC1] reqC1)).getD 2 dfltEntry)
     (by with_unfolding_all decide)⟩

/-- If the adjacent-violation scan reports false, no adjacent pair in the
list matches the pickup-then-dropoff-at-same-station pattern. -/
lemma adjViol_false_pairs : ∀ (l : List Stop), adjViol l = false →
    ∀ j, j + 1 < l.length →
      ¬((l.getD j dfltStop).station = (l.getD (j + 1) dfltStop).station
        ∧ 0 < (l.getD j dfltStop).boarding
        ∧ (l.getD (j + 1) dfltStop).boarding < 0)
  | [], _, j, hj => by simp at hj
  | [a], _, j, hj => by
    simp only [List.length_cons, List.length_nil] at hj
    omega
  | a :: b :: t, h, j, hj => by
    rw [adjViol] at h
    rcases Bool.or_eq_false_iff.mp h with ⟨h1, h2⟩
    match j with
    | 0 =>
      intro ⟨hs, hb1, hb2⟩
      simp only [List.getD_cons_zero, List.getD_cons_succ] at hs hb1 hb2
      simp only [Bool.and_eq_false_iff, beq_eq_false_iff_ne, decide_eq_false_iff_not] at h1
      rcases h1 with (h1 | h1) | h1
      · exact h1 hs
      · exact h1 hb1
      · exact h1 hb2
    | Nat.succ j2 =>
      have := adjViol_false_pairs (b :: t) h2 j2 (by simpa using hj)
      simpa using this

/-- Positional access through `map Prod.snd`. -/
lemma getD_map_snd (l : Sched) (j : Nat) (hj : j < l.length) :
    (l.map (fun row => row.2)).getD j dfltStop = (l.getD j (0, dfltStop)).2 := by
  induction l generalizing j with
  | nil => simp at hj
  | cons a t ih =>
    match j with
    | 0 => rfl
    | Nat.succ j2 =>
      simp only [List.map_cons, List.getD_cons_succ]
      exact ih j2 (by simpa using hj)

/-- C4, amended.  The checker rejects a candidate containing an adjacent
pickup-then-dropoff pair at a shared station only when the pickup is NOT
the candidate's first stop: every retained candidate is free of such
pairs at positions k ≥ 1, while a pair starting at position 0 can
survive (see the counterexample). -/
theorem c4_amended (env : Env) (cfg : Weights) (vehicles : List Vehicle)
    (entries : List Entry) (e2 : Entry)
    (h : e2 ∈ checkOccupationDelay env cfg vehicles entries) :
    ∀ k, 1 ≤ k → k + 1 < e2.sched.length →
      ¬((e2.sched.getD k (0, dfltStop)).2.station
          = (e2.sched.getD (k + 1) (0, dfltStop)).2.station
        ∧ 0 < (e2.sched.getD k (0, dfltStop)).2.boarding
        ∧ (e2.sched.getD (k + 1) (0, dfltStop)).2.boarding < 0) := by
  obtain ⟨e, _, hcond, he2⟩ := (mem_checkOccupationDelay_iff env cfg vehicles entries e2).mp h
  have hviol : sameStationViol e2.sched = false := by
    rcases Bool.or_eq_false_iff.mp hcond with ⟨hc1, _⟩
    rcases Bool.or_eq_false_iff.mp hc1 with ⟨hv, _⟩
    have hs : e2.sched = recomputeSched env cfg e.sched := by rw [he2]
    rw [hs]
    exact hv
  intro k hk hk1
  match hsched : e2.sched with
  | [] => rw [hsched] at hk1; simp at hk1
  | r0 :: rest =>
    rw [hsched] at hviol
    rw [sameStationViol] at hviol
    match k, hk with
    | Nat.succ j, _ =>
      rw [hsched] at hk1
      have hjlen : j + 1 < rest.length := by simpa using hk1
      have hpair := adjViol_false_pairs (rest.map (fun row => row.2)) hviol j
        (by simpa using hjlen)
      rw [getD_map_snd rest j (by omega), getD_map_snd rest (j + 1) hjlen] at hpair
      simpa using hpair

theorem c4_amended_witness :
    ((checkOccupationDelay envT cfgT [vehC4]
        (creatingPossibleSchedules envT cfgT [vehC4] reqB)).getD 0 dfltEntry
      ∈ checkOccupationDelay envT cfgT [vehC4]
          (creatingPossibleSchedules envT cfgT [vehC4] reqB))
    ∧ (∀ k, 1 ≤ k → k + 1 < ((checkOccupationDelay envT cfgT [vehC4]
          (creatingPossibleSchedules envT cfgT [vehC4] reqB)).getD 0 dfltEntry).sched.length →
        ¬((((checkOccupationDelay envT cfgT [vehC4]
              (creatingPossibleSchedules envT cfgT [vehC4] reqB)).getD 0
              dfltEntry).sched.getD k (0, dfltStop)).2.station
            = (((checkOccupationDelay envT cfgT [vehC4]
              (creatingPossibleSchedules envT cfgT [vehC4] reqB)).getD 0
              dfltEntry).sched.getD (k + 1) (0, dfltStop)).2.station
          ∧ 0 < (((checkOccupationDelay envT cfgT [vehC4]
              (creatingPossibleSchedules envT cfgT [vehC4] reqB)).getD 0
              dfltEntry).sched.getD k (0, dfltStop)).2.boarding
          ∧ (((checkOccupationDelay envT cfgT [vehC4]
              (creatingPossibleSchedules envT cfgT [vehC4] reqB)).getD 0
              dfltEntry).sched.getD (k + 1) (0, dfltStop)).2.boarding < 0)) :=
  ⟨by with_unfolding_all decide,
   c4_amended envT cfgT [vehC4]
     (creatingPossibleSchedules envT cfgT [vehC4] reqB)
     ((checkOccupationDelay envT cfgT [vehC4]
        (creatingPossibleSchedules envT cfgT [vehC4] reqB)).getD 0 dfltEntry)
     (by with_unfolding_all decide)⟩

/-- C9, confirmed.  Running the checker on a candidate it has already
processed and retained reproduces it exactly: the recomputation of
planned times, occupations and delays is idempotent, the pooling rate is
recomputed to the same value, and the candidate is retained again. -/
theorem c9_idempotent (env : Env) (cfg : Weights) (vehicles : List Vehicle)
    (entries : List Entry) (e2 : Entry)
    (h : e2 ∈ checkOccupationDelay env cfg vehicles entries) :
    checkOccupationDelay env cfg vehicles [e2] = [e2] := by
  obtain ⟨e, _, hcond, he2⟩ := (mem_checkOccupationDelay_iff env cfg vehicles entries e2).mp h
  subst he2
  simp only [checkOccupationDelay, List.filterMap]
  rw [recomputeSched_idem]
  simp only [hcond]
  rfl

theorem c9_idempotent_witness :
    ((checkOccupationDelay envT cfgT [vehT]
        (creatingPossibleSchedules envT cfgT [vehT] reqA)).getD 0 dfltEntry
      ∈ checkOccupationDelay envT cfgT [vehT]
          (creatingPossibleSchedules envT cfgT [vehT] reqA))
    ∧ checkOccupationDelay envT cfgT [vehT]
        [(checkOccupationDelay envT cfgT [vehT]
            (creatingPossibleSchedules envT cfgT [vehT] reqA)).getD 0 dfltEntry]
      = [(checkOccupationDelay envT cfgT [vehT]
            (creatingPossibleSchedules envT cfgT [vehT] reqA)).getD 0 dfltEntry] :=
  ⟨by with_unfolding_all decide,
   c9_idempotent envT cfgT [vehT]
     (creatingPossibleSchedules envT cfgT [vehT] reqA)
     ((checkOccupationDelay envT cfgT [vehT]
        (creatingPossibleSchedules envT cfgT [vehT] reqA)).getD 0 dfltEntry)
     (by with_unfolding_all decide)⟩

/-- The seed of a left max-fold is below the fold. -/
lemma foldl_max_init (l : List ℚ) : ∀ a : ℚ, a ≤ l.foldl max a := by
  induction l with
  | nil => intro a; exact le_refl a
  | cons h t ih =>
    intro a
    exact le_trans (le_max_left a h) (ih (max a h))

/-- Every list element is below a left max-fold over the list. -/
lemma foldl_max_mem_le (l : List ℚ) : ∀ (a x : ℚ), x ∈ l → x ≤ l.foldl max a := by
  induction l with
  | nil => intro a x hx; exact absurd hx (List.not_mem_nil x)
  | cons h t ih =>
    intro a x hx
    rcases List.mem_cons.mp hx with h1 | h2
    · subst h1
      exact le_trans (le_max_right a x) (foldl_max_init t (max a x))
    · exact ih (max a h) x h2

/-- A left max-fold is either its seed or a list element. -/
lemma foldl_max_in_cons (l : List ℚ) : ∀ a : ℚ, l.foldl max a ∈ a :: l := by
  induction l with
  | nil => intro a; exact List.mem_singleton.mpr rfl
  | cons h t ih =>
    intro a
    rcases List.mem_cons.mp (ih (max a h)) with h1 | h2
    · rcases max_choice a h with hm | hm
      · exact List.mem_cons.mpr (Or.inl (h1.trans hm))
      · exact List.mem_cons.mpr (Or.inr (List.mem_cons.mpr (Or.inl (h1.trans hm))))
    · exact List.mem_cons.mpr (Or.inr (List.mem_cons.mpr (Or.inr h2)))

/-- Python max of a nonempty rational list is an element of the list. -/
lemma listMaxQ_mem (l : List ℚ) (h : l ≠ []) : listMaxQ l ∈ l := by
  match l with
  | [] => exact absurd rfl h
  | a :: t => exact foldl_max_in_cons t a

/-- Python max of a rational list bounds every element. -/
lemma le_listMaxQ (l : List ℚ) (x : ℚ) (hx : x ∈ l) : x ≤ listMaxQ l := by
  match l with
  | a :: t =>
    rcases List.mem_cons.mp hx with h1 | h2
    · subst h1
      exact foldl_max_init t x
    · exact foldl_max_mem_le t a x h2

/-- list.index of an element is inside the list. -/
lemma pyIndex_lt_length (a : ℚ) (l : List ℚ) (h : a ∈ l) : pyIndex a l < l.length := by
  induction l with
  | nil => exact absurd h (List.not_mem_nil a)
  | cons b t ih =>
    rw [pyIndex]
    by_cases hb : b = a
    · simp [hb]
    · rcases List.mem_cons.mp h with h1 | h2
      · exact absurd h1.symm hb
      · simp only [if_neg hb, List.length_cons]
        exact Nat.succ_lt_succ (ih h2)

/-- The element at list.index(a) is a itself. -/
lemma getD_pyIndex (a : ℚ) (l : List ℚ) (d : ℚ) (h : a ∈ l) :
    l.getD (pyIndex a l) d = a := by
  induction l with
  | nil => exact absurd h (List.not_mem_nil a)
  | cons b t ih =>
    rw [pyIndex]
    by_cases hb : b = a
    · simp [hb]
    · rcases List.mem_cons.mp h with h1 | h2
      · exact absurd h1.symm hb
      · simp only [if_neg hb, List.getD_cons_succ]
        exact ih h2

/-- Every position strictly before list.index(a) holds a value other
than a. -/
lemma getD_lt_pyIndex (a : ℚ) (l : List ℚ) (d : ℚ) :
    ∀ j, j < pyIndex a l → l.getD j d ≠ a := by
  induction l with
  | nil => intro j hj; rw [pyIndex] at hj; omega
  | cons b t ih =>
    intro j hj
    rw [pyIndex] at hj
    by_cases hb : b = a
    · rw [if_pos hb] at hj; omega
    · rw [if_neg hb] at hj
      match j with
      | 0 => simpa using hb
      | Nat.succ j2 =>
        simp only [List.getD_cons_succ]
        exact ih j2 (by omega)

/-- C5, confirmed.  calculate_score returns the entry at the first
position attaining the maximal blended score over the feasible set:
the returned entry's score equals the maximum, every score is bounded by
it, and every strictly earlier entry scores strictly below it (Python's
`score_list.index(max(score_list))`). -/
theorem c5_score (env : Env) (cfg : Weights) (vehicles : List Vehicle)
    (entries : List Entry) (h : entries ≠ []) :
    pyIndex (listMaxQ (scoresOf env cfg vehicles entries))
        (scoresOf env cfg vehicles entries) < entries.length
    ∧ calculateScore env cfg vehicles entries
        = entries.getD (pyIndex (listMaxQ (scoresOf env cfg vehicles entries))
            (scoresOf env cfg vehicles entries)) dfltEntry
    ∧ (scoresOf env cfg vehicles entries).getD
        (pyIndex (listMaxQ (scoresOf env cfg vehicles entries))
          (scoresOf env cfg vehicles entries)) 0
        = listMaxQ (scoresOf env cfg vehicles entries)
    ∧ (∀ s ∈ scoresOf env cfg vehicles entries,
        s ≤ listMaxQ (scoresOf env cfg vehicles entries))
    ∧ (∀ j, j < pyIndex (listMaxQ (scoresOf env cfg vehicles entries))
          (scoresOf env cfg vehicles entries) →
        (scoresOf env cfg vehicles entries).getD j 0
          < listMaxQ (scoresOf env cfg vehicles entries)) := by
  have hlen : (scoresOf env cfg vehicles entries).length = entries.length := by
    simp [scoresOf]
  have hne : scoresOf env cfg vehicles entries ≠ [] := by
    intro hemp
    apply h
    rw [← List.length_eq_zero, ← hlen, hemp]
    rfl
  have hmem : listMaxQ (scoresOf env cfg vehicles entries)
      ∈ scoresOf env cfg vehicles entries := listMaxQ_mem _ hne
  have hidx := pyIndex_lt_length _ _ hmem
  refine ⟨by rw [← hlen]; exact hidx, rfl, getD_pyIndex _ _ _ hmem, ?_, ?_⟩
  · intro s hs
    exact le_listMaxQ _ s hs
  · intro j hj
    have hjlen : j < (scoresOf env cfg vehicles entries).length := lt_trans hj hidx
    have hne2 := getD_lt_pyIndex (listMaxQ (scoresOf env cfg vehicles entries))
      (scoresOf env cfg vehicles entries) 0 j hj
    have hle : (scoresOf env cfg vehicles entries).getD j 0
        ≤ listMaxQ (scoresOf env cfg vehicles entries) := by
      apply le_listMaxQ
      rw [List.getD_eq_getElem?_getD, List.getElem?_eq_getElem hjlen]
      exact List.getElem_mem hjlen
    exact lt_of_le_of_ne hle hne2

theorem c5_score_witness :
    (([dfltEntry] : List Entry) ≠ [])
    ∧ (pyIndex (listMaxQ (scoresOf envT cfgT [] [dfltEntry]))
          (scoresOf envT cfgT [] [dfltEntry]) < ([dfltEntry] : List Entry).length
      ∧ calculateScore envT cfgT [] [dfltEntry]
          = ([dfltEntry] : List Entry).getD
              (pyIndex (listMaxQ (scoresOf envT cfgT [] [dfltEntry]))
                (scoresOf envT cfgT [] [dfltEntry])) dfltEntry
      ∧ (scoresOf envT cfgT [] [dfltEntry]).getD
          (pyIndex (listMaxQ (scoresOf envT cfgT [] [dfltEntry]))
            (scoresOf envT cfgT [] [dfltEntry])) 0
          = listMaxQ (scoresOf envT cfgT [] [dfltEntry])
      ∧ (∀ s ∈ scoresOf envT cfgT [] [dfltEntry],
          s ≤ listMaxQ (scoresOf envT cfgT [] [dfltEntry]))
      ∧ (∀ j, j < pyIndex (listMaxQ (scoresOf envT cfgT [] [dfltEntry]))
            (scoresOf envT cfgT [] [dfltEntry]) →
          (scoresOf envT cfgT [] [dfltEntry]).getD j 0
            < listMaxQ (scoresOf envT cfgT [] [dfltEntry]))) :=
  ⟨by simp, c5_score envT cfgT [] [dfltEntry] (by simp)⟩

/-- A vehicle hitting the `break` silences every vehicle after it in the
list: the result is as if the list ended at that vehicle. -/
lemma cpsGo_break (env : Env) (cfg : Weights) (r : Request) (v : Vehicle)
    (hw : windowOf env r v ≠ []) (hrel : relevantOf env cfg r v = []) :
    ∀ (pre post : List Vehicle) (i : Nat),
      cpsGo env cfg r i (pre ++ v :: post) = cpsGo env cfg r i (pre ++ [v]) := by
  have h1 : ¬ ((windowOf env r v).length = 0) := fun hh => hw (List.length_eq_zero.mp hh)
  have h2 : (relevantOf env cfg r v).length = 0 := by rw [hrel]; rfl
  intro pre
  induction pre with
  | nil =>
    intro post i
    simp only [List.nil_append, cpsGo, if_neg h1, if_pos h2]
  | cons u pre2 ih =>
    intro post i
    simp only [List.cons_append, cpsGo]
    by_cases hu1 : (windowOf env r u).length = 0
    · simp only [if_pos hu1]
      exact congrArg (emptyWindowEntry cfg r u i :: ·) (ih post (i + 1))
    · simp only [if_neg hu1]
      by_cases hu2 : (relevantOf env cfg r u).length = 0
      · simp only [if_pos hu2]
      · simp only [if_neg hu2]
        exact congrArg (vehicleEntries env cfg r u i ++ ·) (ih post (i + 1))

/-- C2, amended.  If one vehicle's windowed schedule is nonempty and its
relevant set is empty, no candidate is emitted for that vehicle AND
enumeration stops there: vehicles after it in the list contribute no
candidates (the result equals that of the list truncated at the breaking
vehicle). -/
theorem c2_amended (env : Env) (cfg : Weights) (r : Request)
    (pre post : List Vehicle) (v : Vehicle)
    (hw : windowOf env r v ≠ []) (hrel : relevantOf env cfg r v = []) :
    creatingPossibleSchedules env cfg (pre ++ v :: post) r
      = creatingPossibleSchedules env cfg (pre ++ [v]) r :=
  cpsGo_break env cfg r v hw hrel pre post 0

theorem c2_amended_witness :
    (windowOf envT reqB vehC2 ≠ [])
    ∧ (relevantOf envT cfgT reqB vehC2 = [])
    ∧ creatingPossibleSchedules envT cfgT ([vehC2b] ++ vehC2 :: [vehC2b]) reqB
        = creatingPossibleSchedules envT cfgT ([vehC2b] ++ [vehC2]) reqB :=
  ⟨by with_unfolding_all decide, by with_unfolding_all decide,
   c2_amended envT cfgT reqB [vehC2b] [vehC2b] vehC2
     (by with_unfolding_all decide) (by with_unfolding_all decide)⟩

/-- processRequest on an empty fleet denies the request. -/
lemma processRequest_empty_fleet (env : Env) (cfg : Weights)
    (den : List Request) (r : Request) :
    processRequest env cfg ([], den) r = ([], den ++ [r]) := rfl

/-- Folding the dispatch step over any request list with an empty fleet
appends every request, in order, to the denied list. -/
lemma foldl_empty_fleet (env : Env) (cfg : Weights) :
    ∀ (rs : List Request) (den : List Request),
      rs.foldl (processRequest env cfg) ([], den) = ([], den ++ rs) := by
  intro rs
  induction rs with
  | nil => intro den; simp
  | cons r t ih =>
    intro den
    rw [List.foldl_cons, processRequest_empty_fleet, ih]
    simp

/-- C8, amended.  With an empty fleet, every request is denied and
denial is a regular outcome — EXCEPT when the request list has length
exactly 1, in which case the progress print raises ZeroDivisionError
before the request is dispatched (see the counterexample).  For every
other length the run ends normally with the denied list equal to the
request list in input order. -/
theorem c8_amended (env : Env) (cfg : Weights) (rs : List Request)
    (h : rs.length ≠ 1) :
    poolingRun env cfg [] rs = some ([], rs) := by
  rw [poolingRun, if_neg h, foldl_empty_fleet]
  simp

theorem c8_amended_witness :
    (([reqA, reqB] : List Request).length ≠ 1)
    ∧ poolingRun envT cfgT [] [reqA, reqB] = some ([], [reqA, reqB]) :=
  ⟨by decide, c8_amended envT cfgT [reqA, reqB] (by decide)⟩

/-- getD through set at a different position. -/
lemma getD_set_ne_vehicle (l : List Vehicle) (w i : Nat) (x : Vehicle)
    (d : Vehicle) (h : i ≠ w) : (l.set w x).getD i d = l.getD i d := by
  rw [List.getD_eq_getElem?_getD, List.getD_eq_getElem?_getD,
    List.getElem?_set_ne (fun hh => h hh.symm)]

/-- getD through set at the written position, in bounds. -/
lemma getD_set_self_vehicle (l : List Vehicle) (w : Nat) (x : Vehicle)
    (d : Vehicle) (h : w < l.length) : (l.set w x).getD w d = x := by
  rw [List.getD_eq_getElem?_getD, List.getElem?_set_self h]
  rfl

/-- C7, confirmed.  While one request is processed the only vehicle state
that can change is the winning vehicle's schedule at commit time:
if no candidate survives, every vehicle is untouched; otherwise every
vehicle other than the winner keeps its schedule (and all other fields),
every row of the winner's old schedule whose label does not occur in the
winning candidate survives the commit unchanged in every field, and
every row of the committed schedule is either a candidate row or such an
untouched old row (Vehicle.update_schedule).  Enumeration and
feasibility checking are pure here, mirroring that the source only
mutates per-candidate copies. -/
theorem c7_frame (env : Env) (cfg : Weights) (vs : List Vehicle)
    (den : List Request) (r : Request) :
    (feasibleFor env cfg vs r = [] → (processRequest env cfg (vs, den) r).1 = vs)
    ∧ (feasibleFor env cfg vs r ≠ [] →
      (∀ i, i ≠ (calculateScore env cfg vs (feasibleFor env cfg vs r)).vehicle →
        (processRequest env cfg (vs, den) r).1.getD i dfltVehicle
          = vs.getD i dfltVehicle)
      ∧ (∀ row ∈ (vs.getD (calculateScore env cfg vs (feasibleFor env cfg vs r)).vehicle
            dfltVehicle).schedule,
          ((calculateScore env cfg vs (feasibleFor env cfg vs r)).sched.all
            fun n => n.1 != row.1) = true →
          row ∈ ((processRequest env cfg (vs, den) r).1.getD
            (calculateScore env cfg vs (feasibleFor env cfg vs r)).vehicle
            dfltVehicle).schedule)
      ∧ (∀ row ∈ ((processRequest env cfg (vs, den) r).1.getD
            (calculateScore env cfg vs (feasibleFor env cfg vs r)).vehicle
            dfltVehicle).schedule,
          row ∈ (calculateScore env cfg vs (feasibleFor env cfg vs r)).sched
          ∨ (row ∈ (vs.getD (calculateScore env cfg vs (feasibleFor env cfg vs r)).vehicle
              dfltVehicle).schedule
            ∧ ((calculateScore env cfg vs (feasibleFor env cfg vs r)).sched.all
              fun n => n.1 != row.1) = true))) := by
  constructor
  · intro h
    have hlen : (feasibleFor env cfg vs r).length = 0 := by rw [h]; rfl
    simp only [processRequest, hlen]
    rfl
  · intro h
    have hlen : (feasibleFor env cfg vs r).length ≠ 0 := by
      intro hh
      exact h (List.length_eq_zero.mp hh)
    have hPR : (processRequest env cfg (vs, den) r).1
        = vs.set (calculateScore env cfg vs (feasibleFor env cfg vs r)).vehicle
            { vs.getD (calculateScore env cfg vs (feasibleFor env cfg vs r)).vehicle
                dfltVehicle with
              schedule := updateSchedule
                (vs.getD (calculateScore env cfg vs (feasibleFor env cfg vs r)).vehicle
                  dfltVehicle).schedule
                (calculateScore env cfg vs (feasibleFor env cfg vs r)).sched } := by
      simp only [processRequest, if_pos hlen]
    refine ⟨?_, ?_, ?_⟩
    · intro i hi
      rw [hPR, getD_set_ne_vehicle _ _ _ _ _ hi]
    · intro row hrow hpred
      rw [hPR]
      by_cases hw : (calculateScore env cfg vs (feasibleFor env cfg vs r)).vehicle
          < vs.length
      · rw [getD_set_self_vehicle _ _ _ _ hw]
        exact List.mem_append_left _ (List.mem_filter.mpr ⟨hrow, hpred⟩)
      · rw [List.set_eq_of_length_le (by omega)]
        exact hrow
    · intro row hrow
      rw [hPR] at hrow
      by_cases hw : (calculateScore env cfg vs (feasibleFor env cfg vs r)).vehicle
          < vs.length
      · rw [getD_set_self_vehicle _ _ _ _ hw] at hrow
        rcases List.mem_append.mp hrow with h1 | h2
        · have hf := List.mem_filter.mp h1
          exact Or.inr ⟨hf.1, hf.2⟩
        · exact Or.inl h2
      · rw [List.set_eq_of_length_le (by omega)] at hrow
        have hd : vs.getD (calculateScore env cfg vs (feasibleFor env cfg vs r)).vehicle
            dfltVehicle = dfltVehicle := by
          rw [List.getD_eq_getElem?_getD, List.getElem?_eq_none (by omega)]
          rfl
        rw [hd] at hrow
        exact absurd hrow (List.not_mem_nil row)

theorem c7_frame_witness :
    (feasibleFor envT cfgT [vehT] reqA = []
      → (processRequest envT cfgT ([vehT], []) reqA).1 = [vehT])
    ∧ (feasibleFor envT cfgT [vehT] reqA ≠ [] →
      (∀ i, i ≠ (calculateScore envT cfgT [vehT] (feasibleFor envT cfgT [vehT] reqA)).vehicle →
        (processRequest envT cfgT ([vehT], []) reqA).1.getD i dfltVehicle
          = ([vehT] : List Vehicle).getD i dfltVehicle)
      ∧ (∀ row ∈ (([vehT] : List Vehicle).getD
            (calculateScore envT cfgT [vehT] (feasibleFor envT cfgT [vehT] reqA)).vehicle
            dfltVehicle).schedule,
          ((calculateScore envT cfgT [vehT] (feasibleFor envT cfgT [vehT] reqA)).sched.all
            fun n => n.1 != row.1) = true →
          row ∈ ((processRequest envT cfgT ([vehT], []) reqA).1.getD
            (calculateScore envT cfgT [vehT] (feasibleFor envT cfgT [vehT] reqA)).vehicle
            dfltVehicle).schedule)
      ∧ (∀ row ∈ ((processRequest envT cfgT ([vehT], []) reqA).1.getD
            (calculateScore envT cfgT [vehT] (feasibleFor envT cfgT [vehT] reqA)).vehicle
            dfltVehicle).schedule,
          row ∈ (calculateScore envT cfgT [vehT] (feasibleFor envT cfgT [vehT] reqA)).sched
          ∨ (row ∈ (([vehT] : List Vehicle).getD
              (calculateScore envT cfgT [vehT] (feasibleFor envT cfgT [vehT] reqA)).vehicle
              dfltVehicle).schedule
            ∧ ((calculateScore envT cfgT [vehT] (feasibleFor envT cfgT [vehT] reqA)).sched.all
              fun n => n.1 != row.1) = true))) :=
  c7_frame envT cfgT [vehT] [] reqA

end Ridepooling
